import Mathlib

/-!
# ARlink backend: build scheduler and deploy handler

A shallow embedding of `backend/buildManager.js` (the bounded build scheduler)
and of the `POST /deploy` handler of `backend/index.js`, with the properties
of the written specification stated and proved over it.
-/

namespace BuildManager

/-- A build job, identified by a number (stands for the `build` object that
`runBuild` pushes on the queue). -/
abbrev Job := Nat

/-- The module state of `buildManager.js`: the counter `runningBuilds`, the
array `buildQueue`, and, as ghost state, the workers that were created by
`nextBuild.start()` and have not fired their `exit` event yet, together with
the jobs for whose promise the `exit` handler called `reject`. -/
structure Scheduler where
  runningBuilds : Int
  buildQueue : List Job
  workers : List Job
  rejected : List Job
  deriving DecidableEq

/-- The state at module load: `let runningBuilds = 0; const buildQueue = [];`. -/
def Scheduler.init : Scheduler :=
  { runningBuilds := 0, buildQueue := [], workers := [], rejected := [] }

/-- The `while` loop of `processQueue`, by recursion on the queue: while
`runningBuilds < MAX_CONCURRENT_BUILDS` and the queue is not empty, shift the
first job, increment the counter and start the job (creating its worker). -/
def processQueueLoop (maxConcurrentBuilds : Nat) :
    List Job → Int → List Job → Int × List Job × List Job
  | [], runningBuilds, workers => (runningBuilds, [], workers)
  | nextBuild :: rest, runningBuilds, workers =>
    if runningBuilds < (maxConcurrentBuilds : Int) then
      processQueueLoop maxConcurrentBuilds rest (runningBuilds + 1) (workers ++ [nextBuild])
    else
      (runningBuilds, nextBuild :: rest, workers)

/-- The function `processQueue()`. -/
def processQueue (maxConcurrentBuilds : Nat) (s : Scheduler) : Scheduler :=
  let r := processQueueLoop maxConcurrentBuilds s.buildQueue s.runningBuilds s.workers
  { s with runningBuilds := r.1, buildQueue := r.2.1, workers := r.2.2 }

/-- The function `runBuild(buildParams)`: `buildQueue.push(build); processQueue();`. -/
def runBuild (maxConcurrentBuilds : Nat) (s : Scheduler) (job : Job) : Scheduler :=
  processQueue maxConcurrentBuilds { s with buildQueue := s.buildQueue ++ [job] }

/-- The `exit` handler installed by `createBuildWorker`:
`runningBuilds--; if (code !== 0) reject(...); processQueue();`. -/
def onExit (maxConcurrentBuilds : Nat) (s : Scheduler) (job : Job) (code : Int) : Scheduler :=
  processQueue maxConcurrentBuilds
    { s with
      runningBuilds := s.runningBuilds - 1
      workers := s.workers.erase job
      rejected := if code ≠ 0 then s.rejected ++ [job] else s.rejected }

/-- What can happen to the scheduler: a submission through `runBuild`, or the
`exit` event of a worker. -/
inductive Event where
  | submit (job : Job)
  | exit (job : Job) (code : Int)
  deriving DecidableEq

/-- One event. A worker fires `exit` once, after it was started: the event is
enabled only for a job among the live workers. -/
def step (maxConcurrentBuilds : Nat) (s : Scheduler) : Event → Option Scheduler
  | .submit job => some (runBuild maxConcurrentBuilds s job)
  | .exit job code =>
    if job ∈ s.workers then some (onExit maxConcurrentBuilds s job code) else none

/-- A finite sequence of events, from a given state. -/
def run (maxConcurrentBuilds : Nat) : Scheduler → List Event → Option Scheduler
  | s, [] => some s
  | s, e :: es =>
    match step maxConcurrentBuilds s e with
    | some s' => run maxConcurrentBuilds s' es
    | none => none

/-- The scheduler invariant: the counter equals the number of live workers,
and does not exceed the bound. -/
def Scheduler.Bounded (maxConcurrentBuilds : Nat) (s : Scheduler) : Prop :=
  s.runningBuilds = (s.workers.length : Int) ∧ s.workers.length ≤ maxConcurrentBuilds

end BuildManager

namespace Deploy

/-! ## Values of the request and of the registry -/

/-- JavaScript truthiness of a value that is a string or `undefined`:
`undefined` and the empty string are falsy. -/
def truthy : Option String → Bool
  | some s => decide (s ≠ "")
  | none => false

/-- A template literal around a string-or-undefined value. -/
def template : Option String → String
  | some s => s
  | none => "undefined"

/-- The body of a deploy request (`req.body`); a field that is absent is `none`. -/
structure Request where
  repository : Option String
  installCommand : Option String
  buildCommand : Option String
  outputDir : Option String
  branch : Option String
  subDirectory : Option String
  protocolLand : Bool
  walletAddress : Option String
  repoName : Option String
  deriving DecidableEq

/-- What `handleBuild` returns, and what ends up in a record's `url`: a
content address, or the JavaScript value `false`. -/
inductive UrlValue where
  | str (address : String)
  | jsFalse
  deriving DecidableEq

/-- A DeploymentRecord: the object `buildConfig` of the handler. -/
structure DeploymentRecord where
  owner : Option String
  repoName : Option String
  repository : Option String
  branch : Option String
  installCommand : Option String
  buildCommand : Option String
  outputDir : Option String
  subDirectory : Option String
  protocolLand : Bool
  walletAddress : Option String
  lastBuiltCommit : String
  maxDailyDeploys : Nat
  deployCount : Nat
  url : UrlValue
  deriving DecidableEq

/-- The global registry: the ordered collection of all records. -/
abbrev Registry := List DeploymentRecord

/-- The two objects of partial fields that the handler passes to
`updateRegistry`. -/
inductive RecordUpdate where
  | commands (installCommand buildCommand outputDir subDirectory : Option String)
  | built (lastBuiltCommit : String) (url : UrlValue)
  deriving DecidableEq

/-- Merging the given fields into a record. -/
def RecordUpdate.merge (c : DeploymentRecord) : RecordUpdate → DeploymentRecord
  | .commands installCommand buildCommand outputDir subDirectory =>
    { c with
      installCommand := installCommand
      buildCommand := buildCommand
      outputDir := outputDir
      subDirectory := subDirectory }
  | .built lastBuiltCommit url => { c with lastBuiltCommit := lastBuiltCommit, url := url }

/-- The test `config.owner === owner && config.repoName === folderName`. -/
def sameRepo (owner folderName : Option String) (config : DeploymentRecord) : Bool :=
  decide (config.owner = owner) && decide (config.repoName = folderName)

/-- Modelled from the spec: `getGlobalRegistry` of the absent `buildRegistry.js`,
the full snapshot of the registry. -/
def getGlobalRegistry (registry : Registry) : List DeploymentRecord := registry

/-- Modelled from the spec: `getIndividualConfig` of the absent
`buildRegistry.js`, the record of `(owner, repoName)` or absent. -/
def getIndividualConfig (registry : Registry) (owner repoName : Option String) :
    Option DeploymentRecord :=
  registry.find? (sameRepo owner repoName)

/-- Modelled from the spec: `getDeployCount` of the absent `buildRegistry.js`,
the deploy count stored in the record of `(owner, repoName)`. -/
def getDeployCount (registry : Registry) (owner repoName : Option String) : Option Nat :=
  (getIndividualConfig registry owner repoName).map (fun c => c.deployCount)

/-- Modelled from the spec: `addToRegistry` of the absent `buildRegistry.js`:
"inserts a new record; fails if a record for this owner already exists with a
different repository name". `none` is the failure. -/
def addToRegistry (registry : Registry) (record : DeploymentRecord) : Option Registry :=
  if registry.any (fun c => decide (c.owner = record.owner) && decide (c.repoName ≠ record.repoName))
  then none
  else some (registry ++ [record])

/-- Merge `updates` into the first record of `(owner, repoName)`. -/
def mergeFirst (owner repoName : Option String) (updates : RecordUpdate) :
    List DeploymentRecord → Option (List DeploymentRecord)
  | [] => none
  | c :: cs =>
    if sameRepo owner repoName c then some (updates.merge c :: cs)
    else (mergeFirst owner repoName updates cs).map (fun cs' => c :: cs')

/-- Modelled from the spec: `updateRegistry` of the absent `buildRegistry.js`:
"merges the given fields into the existing record; fails if no record exists".
`none` is the failure. -/
def updateRegistry (registry : Registry) (owner repoName : Option String)
    (updates : RecordUpdate) : Option Registry :=
  mergeFirst owner repoName updates registry

/-! ## Owner and folder of a request -/

/-- `s.split("/")` on the characters of a string. -/
def splitSlash : List Char → List (List Char)
  | [] => [[]]
  | c :: cs =>
    if c = '/' then [] :: splitSlash cs
    else
      match splitSlash cs with
      | [] => [[c]]
      | seg :: segs => (c :: seg) :: segs

/-- `s.replace(/\.git|\/$/, "")`: the leftmost match of `.git`, or of a slash
that ends the string, is removed. -/
def replaceGitOrSlash : List Char → List Char
  | [] => []
  | c :: cs =>
    if (c :: cs).take 4 = ['.', 'g', 'i', 't'] then cs.drop 3
    else if c = '/' ∧ cs = [] then []
    else c :: replaceGitOrSlash cs

/-- The owner in the conventional mode: `repository.split("/").reverse()[1]`. -/
def ownerOf (repository : String) : Option String :=
  ((splitSlash repository.data).reverse.get? 1).map String.mk

/-- The folder in the conventional mode:
`repository.replace(/\.git|\/$/, "").split("/").pop()`. -/
def folderOf (repository : String) : Option String :=
  ((splitSlash (replaceGitOrSlash repository.data)).getLast?).map String.mk

/-- The derivation of `owner` and `folderName`, as the handler and `runBuild`
both write it. -/
def ownerAndFolder (req : Request) : Option String × Option String :=
  if req.protocolLand then (req.walletAddress, req.repoName)
  else (ownerOf (template req.repository), folderOf (template req.repository))

/-- The normalised output directory:
`outputDir.startsWith("./") ? outputDir.slice(2) : outputDir`. -/
def outputDistOf (outputDir : String) : String :=
  match outputDir.data with
  | c₁ :: c₂ :: rest => if c₁ = '.' ∧ c₂ = '/' then String.mk rest else outputDir
  | _ => outputDir

/-! ## The build area on disk -/

/-- The directory `./builds`: for every owner directory its entries, and for
every entry the text of its `build.log`, if it has one. Names are single path
segments. -/
abbrev BuildArea := List (String × List (String × Option String))

/-- The call `fs.readdirSync(ownerPath)` guarded by `fs.existsSync(ownerPath)`:
the entry names of `./builds/<owner>`, or `none` when it does not exist. -/
def readdirSync (area : BuildArea) (owner : String) : Option (List String) :=
  (area.lookup owner).map (fun entries => entries.map Prod.fst)

/-- Whether `./builds/<owner>/<folder>` exists. -/
def folderExists (area : BuildArea) (owner folder : String) : Bool :=
  match area.lookup owner with
  | some entries => (entries.lookup folder).isSome
  | none => false

/-- The text of `./builds/<owner>/<folder>/build.log`, if it can be read. -/
def readLog (area : BuildArea) (owner folder : String) : Option String :=
  match area.lookup owner with
  | some entries => (entries.lookup folder).join
  | none => none

/-- The call `fs.rmSync("./builds/<owner>/<folder>", { recursive: true, force: true })`. -/
def rmSync (area : BuildArea) (owner folder : String) : BuildArea :=
  area.map (fun d =>
    if d.1 = owner then (d.1, d.2.filter (fun e => decide (e.1 ≠ folder))) else d)

/-- The worker leaves `./builds/<owner>/<folder>` on disk with the given log. -/
def writeFolder (area : BuildArea) (owner folder : String) (log : Option String) : BuildArea :=
  match area.lookup owner with
  | none => area ++ [(owner, [(folder, log)])]
  | some _ =>
    area.map (fun d =>
      if d.1 = owner then (d.1, d.2.filter (fun e => decide (e.1 ≠ folder)) ++ [(folder, log)])
      else d)

/-! ## The collaborators of one request -/

/-- The outcome of `getLatestCommitHash(repository, branch)`: the collaborator
(`gitUtils.js`) is outside the sources, so what it answers is an input. -/
inductive CommitLookup where
  | hash (latestCommit : String)
  | throws (message : String)
  deriving DecidableEq

/-- The outcome of the build and of the upload of one request; the worker
script and the storage network are outside the sources, so what they do is an
input. `built`:
`runBuild` resolves (the worker exits with code 0 and the output directory
exists). `deployed`: the id that `deployFolder` returns, `none` when it throws.
`folder`: what the worker leaves at `./builds/<owner>/<folder>`, `none` for
nothing, `some log` for the directory with that `build.log`. -/
structure BuildRun where
  built : Bool
  deployed : Option String
  folder : Option (Option String)
  deriving DecidableEq

/-- Everything a request meets: the registry, the build area, and what the
commit lookup, the build and the upload are going to answer. -/
structure World where
  registry : Registry
  area : BuildArea
  commit : CommitLookup
  build : BuildRun

/-- The function `handleBuild`: the id from `deployFolder` when `runBuild` and
`deployFolder` both succeed, `false` otherwise. -/
def handleBuild (b : BuildRun) : UrlValue :=
  if b.built then
    match b.deployed with
    | some id => .str id
    | none => .jsFalse
  else .jsFalse

/-- The build area after the worker of `handleBuild` has run. -/
def areaAfterBuild (area : BuildArea) (owner folder : String) (b : BuildRun) : BuildArea :=
  match b.folder with
  | some log => writeFolder area owner folder log
  | none => area

/-! ## The handler of `POST /deploy` -/

/-- An exception caught by the `catch` of the handler. -/
inductive Failure where
  | commitLookup (message : String)
  | addToRegistry
  | updateRegistry
  | noIndividualConfig
  deriving DecidableEq

/-- The argument of `res.send`. -/
inductive Body where
  | text (s : String)
  | jsonFalse
  | errorMessage (e : Failure)
  deriving DecidableEq

/-- The response `res.status(status).send(body)`. -/
structure Response where
  status : Nat
  body : Body
  deriving DecidableEq

/-- A call into `buildRegistry.js`. -/
inductive RegistryOp where
  | getGlobalRegistry
  | getDeployCount
  | getIndividualConfig
  | addToRegistry
  | updateRegistry
  deriving DecidableEq

/-- What a request leaves behind: the response (`none` when the handler
throws before it sends one), the registry, the build area, the number of jobs
submitted to `runBuild`, and the calls made into the registry, in order. -/
structure Outcome where
  response : Option Response
  registry : Registry
  area : BuildArea
  builds : Nat
  registryOps : List RegistryOp
  deriving DecidableEq

/-- The value sent by `res.status(200).send(buildResult)`. -/
def Body.ofResult : UrlValue → Body
  | .str address => .text address
  | .jsFalse => .jsonFalse

/-- The checks on the required fields, in the order of the handler: the text
of the 400 response of the first one that fails. -/
def validate (req : Request) : Option String :=
  if !truthy req.repository then some "Repository is required"
  else if !truthy req.installCommand then some "Install Command is required"
  else if !truthy req.buildCommand then some "Build Command is required"
  else if !truthy req.outputDir then some "Output Directory is required"
  else if !truthy req.branch then some "Branch is required"
  else none

/-- The three ways out of the check on `./builds/<owner>`. -/
inductive Conflict where
  | proceed
  | update
  | reject
  deriving DecidableEq

/-- The check "the owner already has a repository deployed". -/
def conflictCheck (area : BuildArea) (owner folderName : Option String) : Conflict :=
  match readdirSync area (template owner) with
  | none => .proceed
  | some deployedRepos =>
    if deployedRepos.length > 0 then
      if (match folderName with
          | some f => decide (f ∈ deployedRepos)
          | none => false)
      then .update
      else .reject
    else .proceed

/-- The text of the conflict response. -/
def conflictMessage : String :=
  "You can only have one repository deployed at a time. Please remove the existing repository before deploying a new one."

/-- The `catch` block: `fs.readFile` of the log is started, the response
`res.status(500).send(error.message)` is sent at once, and the callback of
`readFile` then removes the folder when the log could be read (its own
`res.send` comes after the response). -/
def deployCatch (registry : Registry) (area : BuildArea) (builds : Nat)
    (ops : List RegistryOp) (owner folderName : Option String) (e : Failure) : Outcome :=
  { response := some { status := 500, body := .errorMessage e }
    registry := registry
    area :=
      match readLog area (template owner) (template folderName) with
      | some _ => rmSync area (template owner) (template folderName)
      | none => area
    builds := builds
    registryOps := ops }

/-- The branch `if (!existingConfig)`: the first deploy. -/
def firstDeploy (w : World) (registry : Registry) (ops : List RegistryOp)
    (owner folderName : Option String) (buildConfig : DeploymentRecord) : Outcome :=
  let area := areaAfterBuild w.area (template owner) (template folderName) w.build
  match handleBuild w.build with
  | .jsFalse =>
    { response := some { status := 500, body := .text "Deployment failed:" }
      registry := registry
      area := rmSync area (template owner) (template folderName)
      builds := 1
      registryOps := ops }
  | .str result =>
    match addToRegistry registry { buildConfig with url := .str result } with
    | none =>
      deployCatch registry area 1 (ops ++ [.addToRegistry]) owner folderName .addToRegistry
    | some registry' =>
      { response := some { status := 200, body := .text result }
        registry := registry'
        area := area
        builds := 1
        registryOps := ops ++ [.addToRegistry] }

/-- The branch `else`: a record exists already. -/
def redeploy (w : World) (registry : Registry) (ops : List RegistryOp)
    (owner folderName : Option String) (latestCommit : String)
    (buildConfig : DeploymentRecord) : Outcome :=
  let deployCount := getDeployCount registry owner folderName
  let maxDailyDeploys := buildConfig.maxDailyDeploys
  if (match deployCount with
      | some n => decide (n ≥ maxDailyDeploys)
      | none => false)
  then
    { response := some { status := 429, body := .text "Daily deployment limit reached" }
      registry := registry
      area := w.area
      builds := 0
      registryOps := ops ++ [.getDeployCount] }
  else
    match getIndividualConfig registry owner folderName with
    | none =>
      deployCatch registry w.area 0 (ops ++ [.getDeployCount, .getIndividualConfig])
        owner folderName .noIndividualConfig
    | some individualConfig =>
      if latestCommit ≠ individualConfig.lastBuiltCommit then
        let buildResult := handleBuild w.build
        let area := areaAfterBuild w.area (template owner) (template folderName) w.build
        match updateRegistry registry owner folderName (.built latestCommit buildResult) with
        | none =>
          deployCatch registry area 1
            (ops ++ [.getDeployCount, .getIndividualConfig, .updateRegistry])
            owner folderName .updateRegistry
        | some registry' =>
          { response := some { status := 200, body := Body.ofResult buildResult }
            registry := registry'
            area := area
            builds := 1
            registryOps := ops ++ [.getDeployCount, .getIndividualConfig, .updateRegistry] }
      else
        { response := some { status := 204, body := .text "No new commits" }
          registry := registry
          area := w.area
          builds := 0
          registryOps := ops ++ [.getDeployCount, .getIndividualConfig] }

/-- The `try` block of the handler, entered with the registry as the conflict
check left it. -/
def deployTry (w : World) (registry : Registry) (ops : List RegistryOp) (req : Request)
    (owner folderName : Option String) (outputDist : String) : Outcome :=
  match w.commit with
  | .throws message =>
    deployCatch registry w.area 0 ops owner folderName (.commitLookup message)
  | .hash latestCommit =>
    let buildConfig : DeploymentRecord :=
      { owner := owner
        repoName := folderName
        repository := req.repository
        branch := req.branch
        installCommand := req.installCommand
        buildCommand := req.buildCommand
        outputDir := some outputDist
        subDirectory := req.subDirectory
        protocolLand := req.protocolLand
        walletAddress := req.walletAddress
        lastBuiltCommit := latestCommit
        maxDailyDeploys := 10000000
        deployCount := 0
        url := .str "" }
    let existingConfigs := getGlobalRegistry registry
    match existingConfigs.find? (sameRepo owner folderName) with
    | none => firstDeploy w registry (ops ++ [.getGlobalRegistry]) owner folderName buildConfig
    | some _ =>
      redeploy w registry (ops ++ [.getGlobalRegistry]) owner folderName latestCommit buildConfig

/-- The handler `app.post("/deploy", ...)`. -/
def postDeploy (w : World) (req : Request) : Outcome :=
  match validate req with
  | some message =>
    { response := some { status := 400, body := .text message }
      registry := w.registry
      area := w.area
      builds := 0
      registryOps := [] }
  | none =>
    let outputDist := outputDistOf (template req.outputDir)
    let owner := (ownerAndFolder req).1
    let folderName := (ownerAndFolder req).2
    match conflictCheck w.area owner folderName with
    | .reject =>
      { response := some { status := 400, body := .text conflictMessage }
        registry := w.registry
        area := w.area
        builds := 0
        registryOps := [] }
    | .update =>
      match updateRegistry w.registry owner folderName
          (.commands req.installCommand req.buildCommand (some outputDist) req.subDirectory) with
      | none =>
        { response := none
          registry := w.registry
          area := w.area
          builds := 0
          registryOps := [.updateRegistry] }
      | some registry' =>
        deployTry w registry' [.updateRegistry] req owner folderName outputDist
    | .proceed => deployTry w w.registry [] req owner folderName outputDist

/-- The registry holds at most one record per owner. -/
def OnePerOwner (registry : Registry) : Prop :=
  registry.Pairwise (fun a b => a.owner ≠ b.owner)

instance (registry : Registry) : Decidable (OnePerOwner registry) :=
  inferInstanceAs (Decidable (List.Pairwise (fun a b : DeploymentRecord => a.owner ≠ b.owner) registry))

/-! ## Sample data -/

/-- The request of the example in the specification. -/
def siteRequest : Request :=
  { repository := some "https://host/alice/site.git"
    installCommand := some "x"
    buildCommand := some "y"
    outputDir := some "./dist"
    branch := some "main"
    subDirectory := none
    protocolLand := false
    walletAddress := none
    repoName := none }

/-- A record of `alice` for the repository `site`, last built at commit `c1`. -/
def siteRecord : DeploymentRecord :=
  { owner := some "alice"
    repoName := some "site"
    repository := some "https://host/alice/site.git"
    branch := some "main"
    installCommand := some "x"
    buildCommand := some "y"
    outputDir := some "dist"
    subDirectory := none
    protocolLand := false
    walletAddress := none
    lastBuiltCommit := "c1"
    maxDailyDeploys := 10000000
    deployCount := 3
    url := .str "A0" }

/-- A record of `alice` for another repository, `blog`. -/
def blogRecord : DeploymentRecord :=
  { siteRecord with
    repoName := some "blog"
    repository := some "https://host/alice/blog.git"
    url := .str "B0" }

/-- A build and upload that succeed with the address `abc123`. -/
def goodBuild : BuildRun :=
  { built := true, deployed := some "abc123", folder := some (some "build ok") }

/-- A build that fails and leaves its log behind. -/
def failedBuild : BuildRun :=
  { built := false, deployed := none, folder := some (some "npm ERR!") }

/-- The build area of `alice` after an earlier deploy of `site`. -/
def siteArea : BuildArea := [("alice", [("site", some "old log")])]

/-- The build area of `alice` holding another repository, `blog`. -/
def blogArea : BuildArea := [("alice", [("blog", some "old log")])]

/-- The record of `alice/site` with its deploy count at the handler's limit. -/
def atQuotaRecord : DeploymentRecord := { siteRecord with deployCount := 10000000 }

/-- The record of `alice/site` with a limit of its own, which it has reached. -/
def lowLimitRecord : DeploymentRecord :=
  { siteRecord with maxDailyDeploys := 5, deployCount := 5 }

/-- No record and an empty build area; the build succeeds. -/
def freshWorld : World :=
  { registry := [], area := [], commit := .hash "c1", build := goodBuild }

/-- No record and an empty build area; the build fails. -/
def freshFailingWorld : World :=
  { registry := [], area := [], commit := .hash "c2", build := failedBuild }

/-- No record, but the build area of `alice` holds `blog`. -/
def freshConflictWorld : World :=
  { registry := [], area := blogArea, commit := .hash "c1", build := goodBuild }

/-- The registry holds `alice/blog`, the build area is empty. -/
def otherRecordWorld : World :=
  { registry := [blogRecord], area := [], commit := .hash "c1", build := goodBuild }

/-- The record of `alice/site` exists and the branch is still at `c1`. -/
def unchangedWorld : World :=
  { registry := [siteRecord], area := siteArea, commit := .hash "c1", build := goodBuild }

/-- The record of `alice/site` exists, the branch is still at `c1`, and the
build area of `alice` holds `blog` only. -/
def unchangedConflictWorld : World :=
  { registry := [siteRecord], area := blogArea, commit := .hash "c1", build := goodBuild }

/-- The record of `alice/site` exists, the branch moved to `c2`, the build
succeeds. -/
def changedWorld : World :=
  { registry := [siteRecord], area := siteArea, commit := .hash "c2", build := goodBuild }

/-- The record of `alice/site` exists, the branch moved to `c2`, and the build
area of `alice` holds `blog` only. -/
def changedConflictWorld : World :=
  { registry := [siteRecord], area := blogArea, commit := .hash "c2", build := goodBuild }

/-- The record of `alice/site` exists, the branch moved to `c2`, the build
fails. -/
def changedFailingWorld : World :=
  { registry := [siteRecord], area := siteArea, commit := .hash "c2", build := failedBuild }

/-- The record of `alice/site` is at the limit, the branch is still at `c1`. -/
def atQuotaUnchangedWorld : World :=
  { registry := [atQuotaRecord], area := siteArea, commit := .hash "c1", build := goodBuild }

/-- The record of `alice/site` is at the limit, the branch moved to `c2`. -/
def atQuotaChangedWorld : World :=
  { registry := [atQuotaRecord], area := siteArea, commit := .hash "c2", build := goodBuild }

/-- The record of `alice/site` is at the limit and the commit lookup throws. -/
def atQuotaLookupFailsWorld : World :=
  { registry := [atQuotaRecord], area := siteArea, commit := .throws "lookup failed",
    build := goodBuild }

/-- The record of `alice/site` is at the limit and the build area of `alice`
holds `blog` only. -/
def atQuotaConflictWorld : World :=
  { registry := [atQuotaRecord], area := blogArea, commit := .hash "c2", build := goodBuild }

/-- The record of `alice/site` has reached its own limit of 5; the branch
moved to `c2`. -/
def lowLimitWorld : World :=
  { registry := [lowLimitRecord], area := siteArea, commit := .hash "c2", build := goodBuild }

end Deploy

namespace DeployFolder

/-! ## The upload of a build: `deployFolder` -/

/-- An entry of a directory, as `readdir` with `withFileTypes` lists it: a file
with its size, or a directory with its own entries. -/
inductive Item where
  | file (name : String) (size : Nat)
  | directory (name : String) (items : List Item)

/-- An element of the array `files`: the path relative to the folder, and the
size. -/
structure File where
  path : String
  size : Nat
  deriving DecidableEq

/-- The path of an entry relative to the folder: `path.relative(folderPath,
path.join(dir, name))`, with `dir` given relative to the folder (empty for the
folder itself). -/
def relativePath (dir name : String) : String :=
  if dir = "" then name else dir ++ "/" ++ name

mutual
/-- One turn of the loop of `readDir`: a directory is read in its turn, a file
is pushed on `files`. -/
def readItem (dir : String) : Item → List File
  | .file name size => [{ path := relativePath dir name, size := size }]
  | .directory name items => readDir (relativePath dir name) items
/-- The function `readDir(dir)`: the files pushed on `files`, in order. -/
def readDir (dir : String) : List Item → List File
  | [] => []
  | item :: rest => readItem dir item ++ readDir dir rest
end

/-- The name of an entry. -/
def Item.name : Item → String
  | .file name _ => name
  | .directory name _ => name

/-- The entry document can be read: `fs.existsSync(indexPath)` holds and
`readFile` succeeds, that is, the folder has a file named `index.html`. -/
def indexReadable (items : List Item) : Bool :=
  match items.find? (fun item => decide (item.name = "index.html")) with
  | some (.file _ _) => true
  | _ => false

/-- The storage network and the wallet, which are outside the sources: whether
`Wallet.json` can be read, whether `getBalance` and `getUploadCosts` answer,
the id returned by `uploadFile` for the file of a given relative path (`none`
when it throws or times out), and the id returned for the manifest. -/
structure Storage where
  walletReadable : Bool
  balanceOk : Bool
  uploadCostsOk : Bool
  uploadFile : String → Option String
  uploadManifest : Option String

/-- The object `manifest`. -/
structure Manifest where
  manifest : String
  version : String
  index : String
  paths : List (String × String)
  deriving DecidableEq

/-- The property read `paths[path]`. -/
def lookupPath (path : String) : List (String × String) → Option String
  | [] => none
  | entry :: rest => if path = entry.1 then some entry.2 else lookupPath path rest

/-- Setting an own property of `manifest.paths`: the entry of `path` is
replaced where it stands, or added at the end. -/
def setOwnPath (path id : String) : List (String × String) → List (String × String)
  | [] => [(path, id)]
  | entry :: rest =>
    if path = entry.1 then (path, id) :: rest else entry :: setOwnPath path id rest

/-- The assignment `manifest.paths[path] = { id }`. It sets an own property,
except for the key `__proto__`: there the assignment of an object sets the
prototype of `manifest.paths` and adds no property, so that
`JSON.stringify(manifest)` writes no entry for it. -/
def setPath (path id : String) (paths : List (String × String)) : List (String × String) :=
  if path = "__proto__" then paths else setOwnPath path id paths

/-- The loop "Upload files": a file whose upload succeeds is pushed on
`uploadedFiles` with the id returned; a failure is logged and the loop goes
on. -/
def uploadFiles (storage : Storage) (files : List File) : List (String × String) :=
  files.filterMap (fun file => (storage.uploadFile file.path).map (fun id => (file.path, id)))

/-- The loop that fills `manifest.paths` from `uploadedFiles`. -/
def manifestPaths (uploadedFiles : List (String × String)) : List (String × String) :=
  uploadedFiles.foldl (fun paths file => setPath file.1 file.2 paths) []

/-- What `deployFolder` returns, with the manifest it uploaded. -/
structure Deployed where
  id : String
  manifest : Manifest
  deriving DecidableEq

/-- The function `deployFolder(folderPath)` on a folder with the given
entries; `none` when it throws. -/
def deployFolder (storage : Storage) (items : List Item) : Option Deployed :=
  if !storage.walletReadable then none
  else if !storage.balanceOk then none
  else if !indexReadable items then none
  else
    let files := readDir "" items
    if !storage.uploadCostsOk then none
    else
      let uploadedFiles := uploadFiles storage files
      let manifest : Manifest :=
        { manifest := "arweave/paths"
          version := "0.2.0"
          index := "index.html"
          paths := manifestPaths uploadedFiles }
      match storage.uploadManifest with
      | none => none
      | some id => some { id := id, manifest := manifest }

/-- A build output with an entry document, a script and a stylesheet in a
subdirectory. -/
def sampleOutput : List Item :=
  [.file "index.html" 120, .file "app.js" 900, .directory "assets" [.file "site.css" 300]]

/-- A build output with a file named `__proto__` next to the entry document. -/
def protoOutput : List Item :=
  [.file "index.html" 120, .file "__proto__" 10]

/-- A storage network on which every upload succeeds, the id being the path
with a prefix. -/
def goodStorage : Storage :=
  { walletReadable := true
    balanceOk := true
    uploadCostsOk := true
    uploadFile := fun path => some ("id-" ++ path)
    uploadManifest := some "abc123" }

/-- The same storage network, except that the upload of `app.js` fails. -/
def flakyStorage : Storage :=
  { goodStorage with
    uploadFile := fun path => if path = "app.js" then none else some ("id-" ++ path) }

end DeployFolder

namespace UnderName

/-! ## The naming resolver: `setUnderName` -/

/-- A record of the naming service: the transaction a name points to, and its
time-to-live. -/
structure AntRecord where
  transactionId : String
  ttlSeconds : Nat
  deriving DecidableEq

/-- The object `records.detailedRecords`: the existing bindings, by name. -/
abbrev Records := List (String × AntRecord)

/-- The property read `records.detailedRecords[name]`, for a name that is not a
property of every object (such as `constructor`). -/
def getRecord (name : String) : Records → Option AntRecord
  | [] => none
  | entry :: rest => if name = entry.1 then some entry.2 else getRecord name rest

/-- The arguments of one call of `ant.setRecord`: the record and the two tags. -/
structure SetRecordCall where
  undername : String
  transactionId : String
  ttlSeconds : Nat
  gitHash : String
  appName : String
  deriving DecidableEq

/-- The effect of `ant.setRecord` on the bindings (the naming service is
outside the sources): the name points to the transaction, with the
time-to-live given; a binding of that name is replaced. -/
def writeRecord (name : String) (record : AntRecord) : Records → Records
  | [] => [(name, record)]
  | entry :: rest =>
    if name = entry.1 then (name, record) :: rest else entry :: writeRecord name record rest

/-- The collaborators of a call, which are outside the sources: whether
`Wallet.json` can be read, whether `ant.getRecords()` answers, and whether
`ant.setRecord` succeeds. -/
structure Service where
  walletReadable : Bool
  getRecordsOk : Bool
  setRecordOk : Bool
  deriving DecidableEq

/-- What a call returns: `true`, `false`, or nothing (`undefined`) when an
exception was caught and logged. -/
inductive Returned where
  | jsTrue
  | jsFalse
  | undefined
  deriving DecidableEq

/-- What a call leaves behind: the value returned, the calls of
`ant.setRecord`, and the bindings. -/
structure Outcome where
  returned : Returned
  setRecordCalls : List SetRecordCall
  records : Records
  deriving DecidableEq

/-- The function `setUnderName(undernamePre, manifestId, latestCommit, owner)`
run on the bindings `records`. -/
def setUnderName (service : Service) (records : Records)
    (undernamePre manifestId latestCommit owner : String) : Outcome :=
  if !service.walletReadable then
    { returned := .undefined, setRecordCalls := [], records := records }
  else if !service.getRecordsOk then
    { returned := .undefined, setRecordCalls := [], records := records }
  else
    let undername₀ := undernamePre
    let choice : Option String :=
      if (getRecord undernamePre records).isSome then some (owner ++ "-" ++ undernamePre)
      else if (getRecord undername₀ records).isSome then none
      else some undername₀
    match choice with
    | none => { returned := .jsFalse, setRecordCalls := [], records := records }
    | some undername =>
      let call : SetRecordCall :=
        { undername := undername
          transactionId := manifestId
          ttlSeconds := 3600
          gitHash := latestCommit
          appName := undername }
      if service.setRecordOk then
        { returned := .jsTrue
          setRecordCalls := [call]
          records := writeRecord undername { transactionId := manifestId, ttlSeconds := 3600 }
            records }
      else
        { returned := .undefined, setRecordCalls := [call], records := records }

/-- A naming service that answers. -/
def goodService : Service :=
  { walletReadable := true, getRecordsOk := true, setRecordOk := true }

/-- Bindings in which both `site` and `alice-site` are taken, by other
transactions. -/
def bothTaken : Records :=
  [("site", { transactionId := "tx-other", ttlSeconds := 3600 }),
   ("alice-site", { transactionId := "tx-third", ttlSeconds := 3600 })]

end UnderName

namespace Deploy

/-- The request of the example, with the repository on a host whose name
contains `.git`. -/
def wwwRequest : Request :=
  { siteRequest with repository := some "https://www.github.com/alice/site.git" }

/-- The request of the example, for a repository whose name contains `.git`
before the suffix. -/
def pagesRequest : Request :=
  { siteRequest with repository := some "https://host/alice/alice.github.io.git" }

end Deploy

namespace BuildManager

theorem processQueueLoop_bounded (C : Nat) (queue : List Job) :
    ∀ (running : Int) (workers : List Job),
      running = (workers.length : Int) → workers.length ≤ C →
      (processQueueLoop C queue running workers).1
          = ((processQueueLoop C queue running workers).2.2.length : Int)
        ∧ (processQueueLoop C queue running workers).2.2.length ≤ C := by
  induction queue with
  | nil => intro running workers h1 h2; exact ⟨h1, h2⟩
  | cons j rest ih =>
    intro running workers h1 h2
    unfold processQueueLoop
    split
    · rename_i hlt
      apply ih
      · simp [h1]
      · simp only [List.length_append, List.length_singleton]
        omega
    · exact ⟨h1, h2⟩

theorem processQueue_bounded (C : Nat) (s : Scheduler)
    (h1 : s.runningBuilds = (s.workers.length : Int)) (h2 : s.workers.length ≤ C) :
    (processQueue C s).Bounded C := by
  unfold Scheduler.Bounded processQueue
  exact processQueueLoop_bounded C s.buildQueue s.runningBuilds s.workers h1 h2

theorem step_bounded (C : Nat) (s s' : Scheduler) (e : Event)
    (hs : s.Bounded C) (h : step C s e = some s') : s'.Bounded C := by
  cases e with
  | submit job =>
    simp only [step, Option.some.injEq] at h
    subst h
    exact processQueue_bounded C _ hs.1 hs.2
  | exit job code =>
    simp only [step] at h
    split at h
    · rename_i hmem
      simp only [Option.some.injEq] at h
      subst h
      have hlen : (s.workers.erase job).length = s.workers.length - 1 :=
        List.length_erase_of_mem hmem
      have hpos : 0 < s.workers.length := List.length_pos_of_mem hmem
      apply processQueue_bounded
      · show s.runningBuilds - 1 = ((s.workers.erase job).length : Int)
        rw [hlen, hs.1]; omega
      · show (s.workers.erase job).length ≤ C
        rw [hlen]; have := hs.2; omega
    · exact absurd h (by simp)

theorem run_bounded (C : Nat) (events : List Event) :
    ∀ s s' : Scheduler, s.Bounded C → run C s events = some s' → s'.Bounded C := by
  induction events with
  | nil =>
    intro s s' hs h
    simp only [run, Option.some.injEq] at h
    exact h ▸ hs
  | cons e es ih =>
    intro s s' hs h
    simp only [run] at h
    split at h
    · rename_i s1 h1
      exact ih s1 s' (step_bounded C s s1 e hs h1) h
    · exact absurd h (by simp)

/-- C1: starting from `runningBuilds = 0` and an empty queue, after every finite
sequence of `runBuild` submissions and worker exits (each started worker
exiting once), the number of workers started and not yet exited is at most
`MAX_CONCURRENT_BUILDS`, and the counter `runningBuilds` is that number. -/
theorem running_never_exceeds_max (maxConcurrentBuilds : Nat) (events : List Event)
    (s : Scheduler) (h : run maxConcurrentBuilds Scheduler.init events = some s) :
    s.workers.length ≤ maxConcurrentBuilds
      ∧ s.runningBuilds = (s.workers.length : Int)
      ∧ s.runningBuilds ≤ (maxConcurrentBuilds : Int) := by
  have hb : s.Bounded maxConcurrentBuilds :=
    run_bounded maxConcurrentBuilds events Scheduler.init s
      ⟨by simp [Scheduler.init], by simp [Scheduler.init]⟩ h
  refine ⟨hb.2, hb.1, ?_⟩
  rw [hb.1]
  exact_mod_cast hb.2

/-- Witness for C1: with two slots, three submissions and one exit leave two
workers running and one job rejected. -/
theorem running_never_exceeds_max_witness :
    run 2 Scheduler.init [.submit 1, .submit 2, .submit 3, .exit 1 1]
        = some { runningBuilds := 2, buildQueue := [], workers := [2, 3], rejected := [1] }
      ∧ ([2, 3] : List Job).length ≤ 2 :=
  ⟨by decide,
   (running_never_exceeds_max 2 [.submit 1, .submit 2, .submit 3, .exit 1 1]
      { runningBuilds := 2, buildQueue := [], workers := [2, 3], rejected := [1] }
      (by decide)).1⟩

end BuildManager

namespace Deploy

/-! ## Lemmas on the registry and on the stages of the handler -/

theorem merge_owner (c : DeploymentRecord) (u : RecordUpdate) : (u.merge c).owner = c.owner := by
  cases u <;> rfl

theorem merge_repoName (c : DeploymentRecord) (u : RecordUpdate) :
    (u.merge c).repoName = c.repoName := by
  cases u <;> rfl

theorem sameRepo_merge (o n : Option String) (c : DeploymentRecord) (u : RecordUpdate) :
    sameRepo o n (u.merge c) = sameRepo o n c := by
  simp [sameRepo, merge_owner, merge_repoName]

theorem mergeFirst_owners (o n : Option String) (u : RecordUpdate) :
    ∀ (reg reg' : List DeploymentRecord), mergeFirst o n u reg = some reg' →
      reg'.map (fun c => c.owner) = reg.map (fun c => c.owner) := by
  intro reg
  induction reg with
  | nil => intro reg' h; simp [mergeFirst] at h
  | cons c cs ih =>
    intro reg' h
    simp only [mergeFirst] at h
    split at h
    · simp only [Option.some.injEq] at h
      subst h
      simp [merge_owner]
    · cases hm : mergeFirst o n u cs with
      | none => simp [hm] at h
      | some cs' =>
        simp only [hm, Option.map_some', Option.some.injEq] at h
        subst h
        simp [ih cs' hm]

theorem onePerOwner_of_owners (reg reg' : Registry)
    (h : reg'.map (fun c => c.owner) = reg.map (fun c => c.owner)) (hp : OnePerOwner reg) :
    OnePerOwner reg' := by
  unfold OnePerOwner at *
  have h1 : (reg.map (fun c => c.owner)).Pairwise (fun a b => a ≠ b) :=
    List.pairwise_map.mpr hp
  rw [← h] at h1
  exact List.pairwise_map.mp h1

theorem updateRegistry_onePerOwner (reg reg' : Registry) (o n : Option String)
    (u : RecordUpdate) (h : updateRegistry reg o n u = some reg') (hp : OnePerOwner reg) :
    OnePerOwner reg' :=
  onePerOwner_of_owners reg reg' (mergeFirst_owners o n u reg reg' h) hp

theorem addToRegistry_onePerOwner (reg reg' : Registry) (record : DeploymentRecord)
    (hfind : reg.find? (sameRepo record.owner record.repoName) = none)
    (h : addToRegistry reg record = some reg') (hp : OnePerOwner reg) :
    OnePerOwner reg' := by
  unfold addToRegistry at h
  split at h
  · exact absurd h (by simp)
  · rename_i hany
    simp only [Option.some.injEq] at h
    subst h
    unfold OnePerOwner at *
    rw [List.pairwise_append]
    refine ⟨hp, List.pairwise_singleton _ _, ?_⟩
    intro a ha b hb
    simp only [List.mem_singleton] at hb
    subst hb
    intro hEq
    have h1 := List.find?_eq_none.mp hfind a ha
    simp only [List.any_eq_true, not_exists, not_and] at hany
    have h2 := hany a ha
    simp only [sameRepo, Bool.and_eq_true, decide_eq_true_eq, not_and] at h1 h2
    by_cases hr : a.repoName = b.repoName
    · exact h1 hEq hr
    · exact h2 hEq hr

theorem firstDeploy_onePerOwner (w : World) (reg : Registry) (ops : List RegistryOp)
    (o n : Option String) (cfg : DeploymentRecord)
    (ho : cfg.owner = o) (hn : cfg.repoName = n)
    (hfind : reg.find? (sameRepo o n) = none) (hp : OnePerOwner reg) :
    OnePerOwner (firstDeploy w reg ops o n cfg).registry := by
  unfold firstDeploy
  cases handleBuild w.build with
  | jsFalse => exact hp
  | str result =>
    simp only
    cases hadd : addToRegistry reg { cfg with url := .str result } with
    | none => exact hp
    | some reg' =>
      refine addToRegistry_onePerOwner reg reg' _ ?_ hadd hp
      simpa [ho, hn] using hfind

theorem redeploy_onePerOwner (w : World) (reg : Registry) (ops : List RegistryOp)
    (o n : Option String) (latestCommit : String) (cfg : DeploymentRecord)
    (hp : OnePerOwner reg) :
    OnePerOwner (redeploy w reg ops o n latestCommit cfg).registry := by
  unfold redeploy
  simp only
  split
  · exact hp
  · cases getIndividualConfig reg o n with
    | none => exact hp
    | some individualConfig =>
      simp only
      split
      · cases hu : updateRegistry reg o n (.built latestCommit (handleBuild w.build)) with
        | none => exact hp
        | some reg' => exact updateRegistry_onePerOwner reg reg' o n _ hu hp
      · exact hp

theorem deployTry_onePerOwner (w : World) (reg : Registry) (ops : List RegistryOp)
    (req : Request) (o n : Option String) (outputDist : String) (hp : OnePerOwner reg) :
    OnePerOwner (deployTry w reg ops req o n outputDist).registry := by
  unfold deployTry
  cases w.commit with
  | throws message => exact hp
  | hash latestCommit =>
    simp only [getGlobalRegistry]
    cases hfind : reg.find? (sameRepo o n) with
    | none => exact firstDeploy_onePerOwner w reg _ o n _ rfl rfl hfind hp
    | some c => exact redeploy_onePerOwner w reg _ o n latestCommit _ hp

theorem mergeFirst_find (o n : Option String) (u : RecordUpdate) :
    ∀ (reg reg' : List DeploymentRecord), mergeFirst o n u reg = some reg' →
      reg'.find? (sameRepo o n) = (reg.find? (sameRepo o n)).map u.merge := by
  intro reg
  induction reg with
  | nil => intro reg' h; simp [mergeFirst] at h
  | cons c cs ih =>
    intro reg' h
    simp only [mergeFirst] at h
    split at h
    · rename_i hc
      simp only [Option.some.injEq] at h
      subst h
      simp [List.find?, sameRepo_merge, hc]
    · rename_i hc
      cases hm : mergeFirst o n u cs with
      | none => simp [hm] at h
      | some cs' =>
        simp only [hm, Option.map_some', Option.some.injEq] at h
        subst h
        simp [List.find?, hc, ih cs' hm]

theorem mergeFirst_of_find (o n : Option String) (u : RecordUpdate) :
    ∀ (reg : List DeploymentRecord) (c : DeploymentRecord),
      reg.find? (sameRepo o n) = some c → ∃ reg', mergeFirst o n u reg = some reg' := by
  intro reg
  induction reg with
  | nil => intro c h; simp at h
  | cons d ds ih =>
    intro c h
    simp only [mergeFirst]
    by_cases hd : sameRepo o n d = true
    · simp [hd]
    · simp only [List.find?, hd] at h
      obtain ⟨reg', hr⟩ := ih c h
      simp [hd, hr]

theorem mergeFirst_none_of_find (o n : Option String) (u : RecordUpdate) :
    ∀ (reg : List DeploymentRecord),
      reg.find? (sameRepo o n) = none → mergeFirst o n u reg = none := by
  intro reg
  induction reg with
  | nil => intro _; rfl
  | cons d ds ih =>
    intro h
    simp only [mergeFirst]
    by_cases hd : sameRepo o n d = true
    · simp [List.find?, hd] at h
    · simp only [List.find?, hd] at h
      simp [hd, ih h]

theorem mergeFirst_others (o n : Option String) (u : RecordUpdate) :
    ∀ (reg reg' : List DeploymentRecord), mergeFirst o n u reg = some reg' →
      reg'.filter (fun c => decide (c.owner ≠ o)) = reg.filter (fun c => decide (c.owner ≠ o)) := by
  intro reg
  induction reg with
  | nil => intro reg' h; simp [mergeFirst] at h
  | cons c cs ih =>
    intro reg' h
    simp only [mergeFirst] at h
    split at h
    · rename_i hc
      simp only [Option.some.injEq] at h
      subst h
      simp only [sameRepo, Bool.and_eq_true, decide_eq_true_eq] at hc
      simp [List.filter, merge_owner, hc.1]
    · cases hm : mergeFirst o n u cs with
      | none => simp [hm] at h
      | some cs' =>
        simp only [hm, Option.map_some', Option.some.injEq] at h
        subst h
        simp only [List.filter, ih cs' hm]

theorem mergeFirst_length (o n : Option String) (u : RecordUpdate) :
    ∀ (reg reg' : List DeploymentRecord), mergeFirst o n u reg = some reg' →
      reg'.length = reg.length := by
  intro reg reg' h
  have := congrArg List.length (mergeFirst_owners o n u reg reg' h)
  simpa using this

/-- The request as the `try` block receives it: after validation and a
conflict check that does not reject, with a record registered for the
repository, the handler is the `try` block run on a registry in which that
record has its commands refreshed at most. -/
theorem postDeploy_existing (w : World) (req : Request) (c : DeploymentRecord)
    (hvalid : validate req = none)
    (hconf : conflictCheck w.area (ownerAndFolder req).1 (ownerAndFolder req).2 ≠ .reject)
    (hrec : getIndividualConfig w.registry (ownerAndFolder req).1 (ownerAndFolder req).2
      = some c) :
    ∃ (reg : Registry) (ops : List RegistryOp) (c' : DeploymentRecord),
      postDeploy w req = deployTry w reg ops req (ownerAndFolder req).1 (ownerAndFolder req).2
          (outputDistOf (template req.outputDir))
        ∧ reg.find? (sameRepo (ownerAndFolder req).1 (ownerAndFolder req).2) = some c'
        ∧ c'.lastBuiltCommit = c.lastBuiltCommit ∧ c'.deployCount = c.deployCount
        ∧ c'.owner = c.owner ∧ c'.repoName = c.repoName
        ∧ reg.filter (fun d => decide (d.owner ≠ (ownerAndFolder req).1))
            = w.registry.filter (fun d => decide (d.owner ≠ (ownerAndFolder req).1))
        ∧ reg.length = w.registry.length := by
  unfold getIndividualConfig at hrec
  unfold postDeploy
  simp only [hvalid]
  cases hcc : conflictCheck w.area (ownerAndFolder req).1 (ownerAndFolder req).2 with
  | reject => exact absurd hcc hconf
  | proceed => exact ⟨w.registry, [], c, rfl, hrec, rfl, rfl, rfl, rfl, rfl, rfl⟩
  | update =>
    simp only [updateRegistry]
    obtain ⟨reg', hr⟩ := mergeFirst_of_find (ownerAndFolder req).1 (ownerAndFolder req).2
      (.commands req.installCommand req.buildCommand
        (some (outputDistOf (template req.outputDir))) req.subDirectory) w.registry c hrec
    rw [hr]
    refine ⟨reg', [.updateRegistry],
      RecordUpdate.merge c (.commands req.installCommand req.buildCommand
        (some (outputDistOf (template req.outputDir))) req.subDirectory),
      rfl, ?_, rfl, rfl, rfl, rfl, mergeFirst_others _ _ _ _ _ hr,
      mergeFirst_length _ _ _ _ _ hr⟩
    rw [mergeFirst_find _ _ _ _ _ hr, hrec]; rfl

theorem deployTry_existing (w : World) (reg : Registry) (ops : List RegistryOp) (req : Request)
    (o n : Option String) (od : String) (H : String) (c : DeploymentRecord)
    (hcommit : w.commit = .hash H) (hfind : reg.find? (sameRepo o n) = some c) :
    deployTry w reg ops req o n od =
      if 10000000 ≤ c.deployCount then
        { response := some { status := 429, body := .text "Daily deployment limit reached" }
          registry := reg
          area := w.area
          builds := 0
          registryOps := ops ++ [.getGlobalRegistry] ++ [.getDeployCount] }
      else if H ≠ c.lastBuiltCommit then
        match updateRegistry reg o n (.built H (handleBuild w.build)) with
        | none =>
          deployCatch reg (areaAfterBuild w.area (template o) (template n) w.build) 1
            (ops ++ [.getGlobalRegistry] ++ [.getDeployCount, .getIndividualConfig, .updateRegistry])
            o n .updateRegistry
        | some registry' =>
          { response := some { status := 200, body := Body.ofResult (handleBuild w.build) }
            registry := registry'
            area := areaAfterBuild w.area (template o) (template n) w.build
            builds := 1
            registryOps :=
              ops ++ [.getGlobalRegistry] ++ [.getDeployCount, .getIndividualConfig, .updateRegistry] }
      else
        { response := some { status := 204, body := .text "No new commits" }
          registry := reg
          area := w.area
          builds := 0
          registryOps := ops ++ [.getGlobalRegistry] ++ [.getDeployCount, .getIndividualConfig] } := by
  unfold deployTry
  simp only [hcommit, getGlobalRegistry, hfind]
  unfold redeploy
  simp only [getDeployCount, getIndividualConfig, hfind, Option.map_some', ge_iff_le,
    decide_eq_true_eq]


theorem firstDeploy_not_skipped (w : World) (reg : Registry) (ops : List RegistryOp)
    (o n : Option String) (cfg : DeploymentRecord) (r : Response)
    (h : (firstDeploy w reg ops o n cfg).response = some r) : r.status ≠ 204 := by
  unfold firstDeploy at h
  cases hb : handleBuild w.build with
  | jsFalse =>
    simp only [hb, Option.some.injEq] at h
    subst h; simp
  | str result =>
    simp only [hb] at h
    cases hadd : addToRegistry reg { cfg with url := .str result } with
    | none =>
      simp only [hadd, deployCatch, Option.some.injEq] at h
      subst h; simp
    | some reg' =>
      simp only [hadd, Option.some.injEq] at h
      subst h; simp

theorem deployTry_new (w : World) (reg : Registry) (ops : List RegistryOp) (req : Request)
    (o n : Option String) (od : String) (r : Response)
    (hfind : reg.find? (sameRepo o n) = none)
    (h : (deployTry w reg ops req o n od).response = some r) : r.status ≠ 204 := by
  unfold deployTry at h
  cases hc : w.commit with
  | throws message =>
    simp only [hc, deployCatch, Option.some.injEq] at h
    subst h; simp
  | hash latestCommit =>
    simp only [hc, getGlobalRegistry, hfind] at h
    exact firstDeploy_not_skipped w reg _ o n _ r h


/-! ## The claims on the deploy handler -/

/-- C2: whatever the build area, the commit lookup, the build and the upload
do, a request handled by `POST /deploy` on a registry with at most one record
per owner leaves a registry with at most one record per owner. -/
theorem deploy_keeps_one_record_per_owner (w : World) (req : Request) (hp : OnePerOwner w.registry) :
    OnePerOwner (postDeploy w req).registry := by
  unfold postDeploy
  cases validate req with
  | some message => exact hp
  | none =>
    simp only
    cases conflictCheck w.area (ownerAndFolder req).1 (ownerAndFolder req).2 with
    | reject => exact hp
    | proceed => exact deployTry_onePerOwner w w.registry _ req _ _ _ hp
    | update =>
      simp only
      cases hu : updateRegistry w.registry (ownerAndFolder req).1 (ownerAndFolder req).2
          (.commands req.installCommand req.buildCommand
            (some (outputDistOf (template req.outputDir))) req.subDirectory) with
      | none => exact hp
      | some reg' =>
        exact deployTry_onePerOwner w reg' _ req _ _ _
          (updateRegistry_onePerOwner w.registry reg' _ _ _ hu hp)

/-- Witness for C2: `alice` has a record for `blog`; a deploy of `alice/site`
whose build succeeds leaves the registry with one record for `alice`. -/
theorem deploy_keeps_one_record_per_owner_witness :
    OnePerOwner otherRecordWorld.registry
      ∧ OnePerOwner (postDeploy otherRecordWorld siteRequest).registry :=
  ⟨by decide, deploy_keeps_one_record_per_owner otherRecordWorld siteRequest (by decide)⟩

/-- C3, at the failing input: a redeploy of `alice/site` at a new commit `c2`
whose build fails. `handleBuild` returns `false`, and the record, which held
the commit `c1` and the address `A0`, afterwards holds the commit `c2` and the
url `false`. -/
theorem failed_redeploy_overwrites_record :
    validate siteRequest = none
      ∧ handleBuild changedFailingWorld.build = .jsFalse
      ∧ getIndividualConfig changedFailingWorld.registry (some "alice") (some "site")
          = some siteRecord
      ∧ getIndividualConfig (postDeploy changedFailingWorld siteRequest).registry
          (some "alice") (some "site")
        = some { siteRecord with lastBuiltCommit := "c2", url := .jsFalse } := by
  decide

/-- C4, at the failing inputs: after a redeploy whose build fails the answer is
200 with the JSON body `false`, and the folder `./builds/alice/site` is still
there with its log; after a first deploy whose build fails the folder is
removed, but the answer is the fixed text `Deployment failed:` although the
build had left a log. -/
theorem failed_build_response_and_area :
    ((postDeploy changedFailingWorld siteRequest).response
          = some { status := 200, body := .jsonFalse }
        ∧ folderExists (postDeploy changedFailingWorld siteRequest).area "alice" "site" = true
        ∧ readLog (postDeploy changedFailingWorld siteRequest).area "alice" "site"
            = some "npm ERR!")
      ∧
    (readLog (areaAfterBuild freshFailingWorld.area "alice" "site" freshFailingWorld.build)
          "alice" "site" = some "npm ERR!"
        ∧ (postDeploy freshFailingWorld siteRequest).response
            = some { status := 500, body := .text "Deployment failed:" }
        ∧ folderExists (postDeploy freshFailingWorld siteRequest).area "alice" "site"
            = false) := by
  decide

/-- Counterexample to C5: with the record's deploy count at 10000000 and an
unchanged commit the answer is 429, not 204; and with a build area that holds
another folder only, the answer is the conflict response 400. -/
theorem unchanged_commit_at_quota_rejected :
    (validate siteRequest = none
        ∧ getIndividualConfig atQuotaUnchangedWorld.registry (some "alice") (some "site")
            = some atQuotaRecord
        ∧ atQuotaRecord.lastBuiltCommit = "c1"
        ∧ atQuotaUnchangedWorld.commit = .hash "c1"
        ∧ (postDeploy atQuotaUnchangedWorld siteRequest).response
            = some { status := 429, body := .text "Daily deployment limit reached" })
      ∧
    (getIndividualConfig unchangedConflictWorld.registry (some "alice") (some "site")
          = some siteRecord
        ∧ (postDeploy unchangedConflictWorld siteRequest).response
            = some { status := 400, body := .text conflictMessage }) := by
  decide

/-- C5 (amended): a valid request that the conflict check does not reject, for
a repository whose record has `lastBuiltCommit` equal to the latest commit
hash and a deploy count below 10000000, is answered 204 "No new commits"; no
build job is submitted and the build area is untouched. -/
theorem unchanged_commit_skips (w : World) (req : Request) (c : DeploymentRecord) (H : String)
    (hvalid : validate req = none)
    (hconf : conflictCheck w.area (ownerAndFolder req).1 (ownerAndFolder req).2 ≠ .reject)
    (hrec : getIndividualConfig w.registry (ownerAndFolder req).1 (ownerAndFolder req).2
      = some c)
    (hcommit : w.commit = .hash H) (hsame : c.lastBuiltCommit = H)
    (hquota : c.deployCount < 10000000) :
    (postDeploy w req).response = some { status := 204, body := .text "No new commits" }
      ∧ (postDeploy w req).builds = 0
      ∧ (postDeploy w req).area = w.area := by
  obtain ⟨reg, ops, c', hpd, hfind, hlc, hdc, -, -, -, -⟩ :=
    postDeploy_existing w req c hvalid hconf hrec
  rw [hpd, deployTry_existing w reg ops req _ _ _ H c' hcommit hfind]
  have h1 : ¬ 10000000 ≤ c'.deployCount := by omega
  have h2 : ¬ H ≠ c'.lastBuiltCommit := by simp [hlc, hsame]
  rw [if_neg h1, if_neg h2]
  exact ⟨rfl, rfl, rfl⟩


/-- Witness for C5 (amended): the second request of the example in the
specification. -/
theorem unchanged_commit_skips_witness :
    ownerAndFolder siteRequest = (some "alice", some "site")
      ∧ (postDeploy unchangedWorld siteRequest).response
          = some { status := 204, body := .text "No new commits" }
      ∧ (postDeploy unchangedWorld siteRequest).builds = 0 :=
  have h := unchanged_commit_skips unchangedWorld siteRequest siteRecord "c1"
    (by decide) (by decide) (by decide) rfl rfl (by decide)
  ⟨by decide, h.1, h.2.1⟩

/-- Counterexample to C6: a record whose own `maxDailyDeploys` is 5 and whose
deploy count is 5 is built and answered 200; a record at 10000000 is answered
500 when the commit lookup throws, and 400 when the build area holds another
folder only. -/
theorem record_limit_not_consulted :
    (validate siteRequest = none
        ∧ getIndividualConfig lowLimitWorld.registry (some "alice") (some "site")
            = some lowLimitRecord
        ∧ lowLimitRecord.deployCount ≥ lowLimitRecord.maxDailyDeploys
        ∧ (postDeploy lowLimitWorld siteRequest).response
            = some { status := 200, body := .text "abc123" }
        ∧ (postDeploy lowLimitWorld siteRequest).builds = 1)
      ∧ (postDeploy atQuotaLookupFailsWorld siteRequest).response
          = some { status := 500, body := .errorMessage (.commitLookup "lookup failed") }
      ∧ (postDeploy atQuotaConflictWorld siteRequest).response
          = some { status := 400, body := .text conflictMessage } := by
  decide

/-- C6 (amended): a valid request that the conflict check does not reject and
whose commit lookup returns a hash, for a repository whose record carries the
limit `maxDailyDeploys = 10000000` that the handler gives to every record and
has a deploy count that reached it, is answered 429; no build job is submitted
and the build area is untouched. -/
theorem quota_reached_rejects (w : World) (req : Request) (c : DeploymentRecord) (H : String)
    (hvalid : validate req = none)
    (hconf : conflictCheck w.area (ownerAndFolder req).1 (ownerAndFolder req).2 ≠ .reject)
    (hrec : getIndividualConfig w.registry (ownerAndFolder req).1 (ownerAndFolder req).2
      = some c)
    (hcommit : w.commit = .hash H)
    (hmax : c.maxDailyDeploys = 10000000)
    (hquota : c.maxDailyDeploys ≤ c.deployCount) :
    (postDeploy w req).response
        = some { status := 429, body := .text "Daily deployment limit reached" }
      ∧ (postDeploy w req).builds = 0
      ∧ (postDeploy w req).area = w.area := by
  obtain ⟨reg, ops, c', hpd, hfind, hlc, hdc, -, -, -, -⟩ :=
    postDeploy_existing w req c hvalid hconf hrec
  rw [hpd, deployTry_existing w reg ops req _ _ _ H c' hcommit hfind]
  have h1 : 10000000 ≤ c'.deployCount := by omega
  rw [if_pos h1]
  exact ⟨rfl, rfl, rfl⟩


/-- Witness for C6 (amended): the record of `alice/site` at 10000000 deploys. -/
theorem quota_reached_rejects_witness :
    atQuotaRecord.maxDailyDeploys ≤ atQuotaRecord.deployCount
      ∧ (postDeploy atQuotaChangedWorld siteRequest).response
          = some { status := 429, body := .text "Daily deployment limit reached" }
      ∧ (postDeploy atQuotaChangedWorld siteRequest).builds = 0 :=
  have h := quota_reached_rejects atQuotaChangedWorld siteRequest atQuotaRecord "c2"
    (by decide) (by decide) (by decide) rfl (by decide) (by decide)
  ⟨by decide, h.1, h.2.1⟩

/-- Counterexample to C7: without any record, a build area of `alice` that
holds `blog` makes the handler answer 400 without a build and without a new
record; and with a record of `alice` for `blog` in the registry, the build of
`site` runs and succeeds, `addToRegistry` fails, the answer is 500 and no
record of `site` is added. -/
theorem first_deploy_blocked :
    (validate siteRequest = none
        ∧ getIndividualConfig freshConflictWorld.registry (some "alice") (some "site") = none
        ∧ handleBuild freshConflictWorld.build = .str "abc123"
        ∧ postDeploy freshConflictWorld siteRequest =
            { response := some { status := 400, body := .text conflictMessage }
              registry := []
              area := blogArea
              builds := 0
              registryOps := [] })
      ∧
    (getIndividualConfig otherRecordWorld.registry (some "alice") (some "site") = none
        ∧ handleBuild otherRecordWorld.build = .str "abc123"
        ∧ (postDeploy otherRecordWorld siteRequest).response
            = some { status := 500, body := .errorMessage .addToRegistry }
        ∧ (postDeploy otherRecordWorld siteRequest).builds = 1
        ∧ (postDeploy otherRecordWorld siteRequest).registry = [blogRecord]) := by
  decide

/-- C7 (amended): a valid request for a repository without a record is never
answered 204; and when the owner has no record at all, the owner directory of
the build area is absent or empty, the commit lookup returns `H` and the build
and upload succeed with the address `A`, one build job is submitted, the answer
is 200 with body `A`, and the registry afterwards is the old one followed by
one record, the only one of the repository, with `url = A`, `deployCount = 0`
and `lastBuiltCommit = H`. -/
theorem first_deploy_records (w : World) (req : Request)
    (hvalid : validate req = none)
    (hnone : getIndividualConfig w.registry (ownerAndFolder req).1 (ownerAndFolder req).2
      = none) :
    (∀ r, (postDeploy w req).response = some r → r.status ≠ 204)
      ∧ ∀ H A : String,
        conflictCheck w.area (ownerAndFolder req).1 (ownerAndFolder req).2 = .proceed →
        (∀ c ∈ w.registry, c.owner ≠ (ownerAndFolder req).1) →
        w.commit = .hash H → handleBuild w.build = .str A →
        (postDeploy w req).response = some { status := 200, body := .text A }
          ∧ (postDeploy w req).builds = 1
          ∧ ∃ c : DeploymentRecord,
              (postDeploy w req).registry = w.registry ++ [c]
              ∧ (postDeploy w req).registry.filter
                  (sameRepo (ownerAndFolder req).1 (ownerAndFolder req).2) = [c]
              ∧ c.owner = (ownerAndFolder req).1 ∧ c.repoName = (ownerAndFolder req).2
              ∧ c.url = .str A ∧ c.deployCount = 0 ∧ c.lastBuiltCommit = H := by
  unfold getIndividualConfig at hnone
  constructor
  · intro r h
    unfold postDeploy at h
    simp only [hvalid] at h
    cases hcc : conflictCheck w.area (ownerAndFolder req).1 (ownerAndFolder req).2 with
    | reject =>
      simp only [hcc, Option.some.injEq] at h
      subst h; simp
    | proceed =>
      simp only [hcc] at h
      exact deployTry_new w w.registry _ req _ _ _ r hnone h
    | update =>
      simp only [hcc, updateRegistry, mergeFirst_none_of_find _ _ _ _ hnone] at h
      exact absurd h (by simp)
  · intro H A hcc hnew hcommit hbuild
    have hany : w.registry.any (fun c => decide (c.owner = (ownerAndFolder req).1)
        && decide (c.repoName ≠ (ownerAndFolder req).2)) = false := by
      rw [List.any_eq_false]
      intro c hc
      simp [hnew c hc]
    have hfilter : w.registry.filter (sameRepo (ownerAndFolder req).1 (ownerAndFolder req).2)
        = [] := by
      rw [List.filter_eq_nil_iff]
      intro c hc
      simp [sameRepo, hnew c hc]
    unfold postDeploy
    simp only [hvalid, hcc]
    unfold deployTry
    simp only [hcommit, getGlobalRegistry, hnone]
    unfold firstDeploy
    simp only [hbuild, addToRegistry, hany]
    refine ⟨rfl, rfl, _, rfl, ?_, rfl, rfl, rfl, rfl, rfl⟩
    simp [List.filter_append, hfilter, List.filter, sameRepo]


/-- Witness for C7 (amended): the first request of the example in the
specification. -/
theorem first_deploy_records_witness :
    postDeploy freshWorld siteRequest =
        { response := some { status := 200, body := .text "abc123" }
          registry := [{ siteRecord with deployCount := 0, url := .str "abc123" }]
          area := [("alice", [("site", some "build ok")])]
          builds := 1
          registryOps := [.getGlobalRegistry, .addToRegistry] }
      ∧ (postDeploy freshWorld siteRequest).response
          = some { status := 200, body := .text "abc123" } :=
  ⟨by decide,
   ((first_deploy_records freshWorld siteRequest (by decide) (by decide)).2 "c1" "abc123"
      (by decide) (by decide) rfl (by decide)).1⟩

/-- Counterexample to C8: with the record's deploy count at 10000000, a
redeploy at a new commit whose build would succeed is answered 429, no build
job is submitted and the record stays as it was; with a build area that holds
another folder only, the answer is 400 and no build job is submitted. -/
theorem changed_commit_not_rebuilt :
    (validate siteRequest = none
        ∧ getIndividualConfig atQuotaChangedWorld.registry (some "alice") (some "site")
            = some atQuotaRecord
        ∧ atQuotaRecord.lastBuiltCommit ≠ "c2"
        ∧ handleBuild atQuotaChangedWorld.build = .str "abc123"
        ∧ (postDeploy atQuotaChangedWorld siteRequest).response
            = some { status := 429, body := .text "Daily deployment limit reached" }
        ∧ (postDeploy atQuotaChangedWorld siteRequest).builds = 0
        ∧ (postDeploy atQuotaChangedWorld siteRequest).registry = [atQuotaRecord])
      ∧
    ((postDeploy changedConflictWorld siteRequest).response
          = some { status := 400, body := .text conflictMessage }
        ∧ (postDeploy changedConflictWorld siteRequest).builds = 0
        ∧ (postDeploy changedConflictWorld siteRequest).registry = [siteRecord]) := by
  decide

/-- C8 (amended): a valid request that the conflict check does not reject, for
a repository whose record has a `lastBuiltCommit` other than the latest commit
hash `H` and a deploy count below 10000000, whose build and upload succeed with
the address `A`: one build job is submitted, the answer is 200 with body `A`,
the record of the repository afterwards has `lastBuiltCommit = H` and
`url = A` with its owner and repository name unchanged, and the records of
the other owners, and the number of records, are as before. -/
theorem changed_commit_rebuilds (w : World) (req : Request) (c : DeploymentRecord)
    (H A : String)
    (hvalid : validate req = none)
    (hconf : conflictCheck w.area (ownerAndFolder req).1 (ownerAndFolder req).2 ≠ .reject)
    (hrec : getIndividualConfig w.registry (ownerAndFolder req).1 (ownerAndFolder req).2
      = some c)
    (hcommit : w.commit = .hash H) (hdiff : c.lastBuiltCommit ≠ H)
    (hquota : c.deployCount < 10000000)
    (hbuild : handleBuild w.build = .str A) :
    (postDeploy w req).builds = 1
      ∧ (postDeploy w req).response = some { status := 200, body := .text A }
      ∧ (∃ c', getIndividualConfig (postDeploy w req).registry
            (ownerAndFolder req).1 (ownerAndFolder req).2 = some c'
          ∧ c'.lastBuiltCommit = H ∧ c'.url = .str A
          ∧ c'.owner = c.owner ∧ c'.repoName = c.repoName)
      ∧ (postDeploy w req).registry.filter (fun d => decide (d.owner ≠ (ownerAndFolder req).1))
          = w.registry.filter (fun d => decide (d.owner ≠ (ownerAndFolder req).1))
      ∧ (postDeploy w req).registry.length = w.registry.length := by
  obtain ⟨reg, ops, c', hpd, hfind, hlc, hdc, hown, hrepo, hothers, hlen⟩ :=
    postDeploy_existing w req c hvalid hconf hrec
  rw [hpd, deployTry_existing w reg ops req _ _ _ H c' hcommit hfind]
  have h1 : ¬ 10000000 ≤ c'.deployCount := by omega
  have h2 : H ≠ c'.lastBuiltCommit := by rw [hlc]; exact fun h => hdiff h.symm
  rw [if_neg h1, if_pos h2, hbuild]
  obtain ⟨reg', hr⟩ := mergeFirst_of_find (ownerAndFolder req).1 (ownerAndFolder req).2
    (.built H (.str A)) reg c' hfind
  have hu : updateRegistry reg (ownerAndFolder req).1 (ownerAndFolder req).2
      (.built H (.str A)) = some reg' := hr
  rw [hu]
  refine ⟨rfl, rfl, ⟨RecordUpdate.merge c' (.built H (.str A)), ?_, rfl, rfl, hown, hrepo⟩, ?_, ?_⟩
  · unfold getIndividualConfig
    rw [mergeFirst_find _ _ _ _ _ hr, hfind]; rfl
  · rw [mergeFirst_others _ _ _ _ _ hr, hothers]
  · rw [mergeFirst_length _ _ _ _ _ hr, hlen]

/-- Witness for C8 (amended): `alice/site` redeployed at the new commit `c2`. -/
theorem changed_commit_rebuilds_witness :
    (postDeploy changedWorld siteRequest).builds = 1
      ∧ (postDeploy changedWorld siteRequest).response
          = some { status := 200, body := .text "abc123" }
      ∧ (postDeploy changedWorld siteRequest).registry
          = [{ siteRecord with lastBuiltCommit := "c2", url := .str "abc123" }] :=
  have h := changed_commit_rebuilds changedWorld siteRequest siteRecord "c2" "abc123"
    (by decide) (by decide) (by decide) rfl (by decide) (by decide) (by decide)
  ⟨h.1, h.2.1, by decide⟩

/-- C9, at the failing input: a successful redeploy of `alice/site` at the new
commit `c2`. The record had `deployCount = 3` before the request and has
`deployCount = 3` after it. -/
theorem redeploy_keeps_deploy_count :
    (getIndividualConfig changedWorld.registry (some "alice") (some "site")).map
          (fun c => c.deployCount) = some 3
      ∧ (postDeploy changedWorld siteRequest).response
          = some { status := 200, body := .text "abc123" }
      ∧ (postDeploy changedWorld siteRequest).builds = 1
      ∧ (getIndividualConfig (postDeploy changedWorld siteRequest).registry (some "alice")
            (some "site")).map (fun c => c.deployCount) = some 3 := by
  decide

/-- C10: a valid request whose owner directory `./builds/<owner>` exists, is
not empty and does not contain the derived folder is answered 400 with the
conflict message; no build is submitted, no call into the registry is made,
and the registry and the build area are as before. -/
theorem different_repository_rejected (w : World) (req : Request) (deployedRepos : List String)
    (hvalid : validate req = none)
    (hdir : readdirSync w.area (template (ownerAndFolder req).1) = some deployedRepos)
    (hother : ∃ name ∈ deployedRepos, some name ≠ (ownerAndFolder req).2)
    (hnot : ∀ f, (ownerAndFolder req).2 = some f → f ∉ deployedRepos) :
    postDeploy w req =
      { response := some { status := 400, body := .text conflictMessage }
        registry := w.registry
        area := w.area
        builds := 0
        registryOps := [] } := by
  have hcc : conflictCheck w.area (ownerAndFolder req).1 (ownerAndFolder req).2 = .reject := by
    unfold conflictCheck
    obtain ⟨name, hname, -⟩ := hother
    have hlen : deployedRepos.length > 0 := List.length_pos_of_mem hname
    simp only [hdir, hlen, if_true]
    cases hf : (ownerAndFolder req).2 with
    | none => simp
    | some f => simp [hnot f hf]
  unfold postDeploy
  simp only [hvalid, hcc]

/-- Witness for C10: `alice` has `blog` in the build area and asks for `site`. -/
theorem different_repository_rejected_witness :
    readdirSync freshConflictWorld.area "alice" = some ["blog"]
      ∧ postDeploy freshConflictWorld siteRequest =
          { response := some { status := 400, body := .text conflictMessage }
            registry := []
            area := blogArea
            builds := 0
            registryOps := [] } :=
  ⟨by decide,
   different_repository_rejected freshConflictWorld siteRequest ["blog"]
      (by decide) (by decide) ⟨"blog", by decide, by decide⟩ (by decide)⟩

end Deploy

namespace BuildManager

/-- C11: when all `MAX_CONCURRENT_BUILDS` slots are busy and the queue starts
with `next`, the exit of a live worker with a nonzero code calls `reject` for
its job, takes the worker off the live ones and starts `next`, the job that
was queued first; the counter is back at the bound, the rest of the queue
waits, and the queue, the counter and the live workers are those that an exit
with code 0 leaves. -/
theorem failed_exit_starts_next (maxConcurrentBuilds : Nat) (s : Scheduler)
    (job next : Job) (rest : List Job) (code : Int)
    (hbusy : s.runningBuilds = (maxConcurrentBuilds : Int))
    (hqueue : s.buildQueue = next :: rest)
    (hjob : job ∈ s.workers) (hcode : code ≠ 0) :
    step maxConcurrentBuilds s (.exit job code)
        = some { runningBuilds := (maxConcurrentBuilds : Int)
                 buildQueue := rest
                 workers := s.workers.erase job ++ [next]
                 rejected := s.rejected ++ [job] }
      ∧ step maxConcurrentBuilds s (.exit job 0)
        = some { runningBuilds := (maxConcurrentBuilds : Int)
                 buildQueue := rest
                 workers := s.workers.erase job ++ [next]
                 rejected := s.rejected } := by
  have hloop : processQueueLoop maxConcurrentBuilds (next :: rest)
      ((maxConcurrentBuilds : Int) - 1) (s.workers.erase job)
      = ((maxConcurrentBuilds : Int), rest, s.workers.erase job ++ [next]) := by
    have h1 : (maxConcurrentBuilds : Int) - 1 < (maxConcurrentBuilds : Int) := by omega
    have h2 : ¬ ((maxConcurrentBuilds : Int) - 1 + 1 < (maxConcurrentBuilds : Int)) := by omega
    cases rest with
    | nil => simp [processQueueLoop, h1]
    | cons r rs => simp [processQueueLoop, h1]
  constructor
  · simp only [step, hjob, if_true, onExit, processQueue, hbusy, hqueue, hloop, hcode, ne_eq,
      not_false_eq_true]
  · simp only [step, hjob, if_true, onExit, processQueue, hbusy, hqueue, hloop, ne_eq,
      not_true_eq_false, if_false]

/-- Witness for C11: two slots, both busy, two jobs waiting; worker 1 exits
with code 1. -/
theorem failed_exit_starts_next_witness :
    step 2 { runningBuilds := 2, buildQueue := [3, 4], workers := [1, 2], rejected := [] }
        (.exit 1 1)
      = some { runningBuilds := 2, buildQueue := [4], workers := [2, 3], rejected := [1] } :=
  (failed_exit_starts_next 2
    { runningBuilds := 2, buildQueue := [3, 4], workers := [1, 2], rejected := [] }
    1 3 [4] 1 rfl rfl (by decide) (by decide)).1

end BuildManager

namespace DeployFolder

theorem lookupPath_setOwnPath (k path id : String) (paths : List (String × String)) :
    lookupPath k (setOwnPath path id paths)
      = if k = path then some id else lookupPath k paths := by
  induction paths with
  | nil => simp [setOwnPath, lookupPath]
  | cons entry rest ih =>
    unfold setOwnPath
    by_cases h : path = entry.1
    · by_cases hk : k = path
      · simp [h, hk, lookupPath]
      · have hk' : k ≠ entry.1 := by rw [← h]; exact hk
        simp [h, hk', lookupPath]
    · by_cases hk : k = path
      · subst hk
        simp [h, lookupPath, ih]
      · simp [h, lookupPath, ih, hk]

theorem lookupPath_setPath (k path id : String) (paths : List (String × String)) :
    lookupPath k (setPath path id paths)
      = if k = path ∧ path ≠ "__proto__" then some id else lookupPath k paths := by
  unfold setPath
  by_cases hp : path = "__proto__"
  · simp [hp]
  · simp [hp, lookupPath_setOwnPath]

theorem lookupPath_foldl (g : String → Option String) (k : String) :
    ∀ (uploaded paths : List (String × String)),
      (∀ entry ∈ uploaded, g entry.1 = some entry.2) →
      lookupPath k (uploaded.foldl (fun paths file => setPath file.1 file.2 paths) paths)
        = if k ∈ uploaded.map Prod.fst ∧ k ≠ "__proto__" then g k
          else lookupPath k paths := by
  intro uploaded
  induction uploaded with
  | nil => intro paths _; simp
  | cons entry rest ih =>
    intro paths hg
    have hrest : ∀ e ∈ rest, g e.1 = some e.2 := fun e he => hg e (List.mem_cons_of_mem _ he)
    have hentry : g entry.1 = some entry.2 := hg entry (List.mem_cons_self _ _)
    simp only [List.foldl_cons, List.map_cons, List.mem_cons]
    rw [ih (setPath entry.1 entry.2 paths) hrest, lookupPath_setPath]
    by_cases hp : k = "__proto__"
    · subst hp
      by_cases h2 : "__proto__" = entry.1
      · simp [← h2]
      · simp [h2]
    · by_cases h1 : k ∈ rest.map Prod.fst
      · simp [h1, hp]
      · by_cases h2 : k = entry.1
        · have hp' : entry.1 ≠ "__proto__" := by rw [← h2]; exact hp
          simp [h1, h2, hentry, hp']
        · simp [h1, h2, hp]

theorem uploadFiles_sound (storage : Storage) (files : List File) :
    ∀ entry ∈ uploadFiles storage files, storage.uploadFile entry.1 = some entry.2 := by
  intro entry hmem
  simp only [uploadFiles, List.mem_filterMap, Option.map_eq_some'] at hmem
  obtain ⟨file, -, id, hid, hentry⟩ := hmem
  subst hentry
  exact hid

theorem mem_uploadFiles_keys (storage : Storage) (files : List File) (k : String) :
    k ∈ (uploadFiles storage files).map Prod.fst
      ↔ (∃ file ∈ files, file.path = k) ∧ (storage.uploadFile k).isSome := by
  simp only [uploadFiles, List.mem_map, List.mem_filterMap, Option.map_eq_some']
  constructor
  · rintro ⟨entry, ⟨file, hfile, id, hid, hentry⟩, hk⟩
    subst hentry
    simp only at hk
    subst hk
    exact ⟨⟨file, hfile, rfl⟩, by simp [hid]⟩
  · rintro ⟨⟨file, hfile, hk⟩, hsome⟩
    subst hk
    obtain ⟨id, hid⟩ := Option.isSome_iff_exists.mp hsome
    exact ⟨(file.path, id), ⟨file, hfile, id, hid, rfl⟩, rfl⟩

theorem lookupPath_manifestPaths (storage : Storage) (files : List File) (k : String)
    (hfile : ∃ file ∈ files, file.path = k) (hk : k ≠ "__proto__") :
    lookupPath k (manifestPaths (uploadFiles storage files)) = storage.uploadFile k := by
  unfold manifestPaths
  rw [lookupPath_foldl storage.uploadFile k _ [] (uploadFiles_sound storage files)]
  cases hup : storage.uploadFile k with
  | none =>
    have : ¬ k ∈ (uploadFiles storage files).map Prod.fst := by
      rw [mem_uploadFiles_keys]; simp [hup]
    simp [this, lookupPath]
  | some id =>
    have : k ∈ (uploadFiles storage files).map Prod.fst := by
      rw [mem_uploadFiles_keys]; exact ⟨hfile, by simp [hup]⟩
    rw [if_pos ⟨this, hk⟩]

theorem deployFolder_eq_some (storage : Storage) (items : List Item) (d : Deployed)
    (h : deployFolder storage items = some d) :
    storage.walletReadable = true ∧ storage.balanceOk = true ∧ indexReadable items = true
      ∧ storage.uploadCostsOk = true ∧ storage.uploadManifest = some d.id
      ∧ d.manifest =
          { manifest := "arweave/paths"
            version := "0.2.0"
            index := "index.html"
            paths := manifestPaths (uploadFiles storage (readDir "" items)) } := by
  unfold deployFolder at h
  cases hw : storage.walletReadable <;> cases hb : storage.balanceOk <;>
    cases hi : indexReadable items <;> cases hc : storage.uploadCostsOk <;>
    cases hm : storage.uploadManifest <;> simp [hw, hb, hi, hc, hm] at h
  subst h
  exact ⟨rfl, rfl, rfl, rfl, rfl, rfl⟩

/-- Counterexample to C12: the upload of `app.js` fails; `deployFolder`
returns the address `abc123` all the same, and the manifest it uploaded has no
entry for `app.js`, a file of the output directory. And a file named
`__proto__`, although its upload succeeds, has no entry either. -/
theorem failed_upload_leaves_file_out :
    { path := "app.js", size := 900 } ∈ readDir "" sampleOutput
      ∧ flakyStorage.uploadFile "app.js" = none
      ∧ deployFolder flakyStorage sampleOutput =
          some { id := "abc123"
                 manifest :=
                   { manifest := "arweave/paths"
                     version := "0.2.0"
                     index := "index.html"
                     paths := [("index.html", "id-index.html"),
                               ("assets/site.css", "id-assets/site.css")] } }
      ∧ (deployFolder flakyStorage sampleOutput).map
            (fun d => lookupPath "app.js" d.manifest.paths) = some none
      ∧ { path := "__proto__", size := 10 } ∈ readDir "" protoOutput
      ∧ goodStorage.uploadFile "__proto__" = some "id-__proto__"
      ∧ deployFolder goodStorage protoOutput =
          some { id := "abc123"
                 manifest :=
                   { manifest := "arweave/paths"
                     version := "0.2.0"
                     index := "index.html"
                     paths := [("index.html", "id-index.html")] } } := by
  decide

/-- C12 (amended): whenever `deployFolder` returns an address, the manifest it
uploaded marks `index.html` as the default index; for every file found by the
recursive enumeration of the output directory whose relative path is not
`__proto__`, the manifest binds the path to the id that the upload of the file
returned, and has no entry for the path when that upload failed or timed out;
and whichever of the file uploads fail, `deployFolder` returns, with the same
address. -/
theorem manifest_binds_uploaded_files (storage : Storage) (items : List Item) (d : Deployed)
    (h : deployFolder storage items = some d) :
    d.manifest.index = "index.html"
      ∧ (∀ file ∈ readDir "" items, file.path ≠ "__proto__" →
          lookupPath file.path d.manifest.paths = storage.uploadFile file.path)
      ∧ ∀ uploadFile : String → Option String,
          ∃ d', deployFolder { storage with uploadFile := uploadFile } items = some d'
            ∧ d'.id = d.id := by
  obtain ⟨hw, hb, hi, hc, hm, hd⟩ := deployFolder_eq_some storage items d h
  refine ⟨by rw [hd], ?_, ?_⟩
  · intro file hfile hproto
    rw [hd]
    exact lookupPath_manifestPaths storage (readDir "" items) file.path ⟨file, hfile, rfl⟩ hproto
  · intro uploadFile
    refine ⟨{ id := d.id
              manifest :=
                { manifest := "arweave/paths"
                  version := "0.2.0"
                  index := "index.html"
                  paths := manifestPaths
                    (uploadFiles { storage with uploadFile := uploadFile } (readDir "" items)) } },
      ?_, rfl⟩
    simp [deployFolder, hw, hb, hi, hc, hm]

/-- Witness for C12 (amended): the upload of `app.js` fails, the two other
uploads succeed. -/
theorem manifest_binds_uploaded_files_witness :
    deployFolder flakyStorage sampleOutput =
        some { id := "abc123"
               manifest :=
                 { manifest := "arweave/paths"
                   version := "0.2.0"
                   index := "index.html"
                   paths := [("index.html", "id-index.html"),
                             ("assets/site.css", "id-assets/site.css")] } }
      ∧ ∀ file ∈ readDir "" sampleOutput, file.path ≠ "__proto__" →
          lookupPath file.path
              [("index.html", "id-index.html"), ("assets/site.css", "id-assets/site.css")]
            = flakyStorage.uploadFile file.path :=
  ⟨by decide,
   (manifest_binds_uploaded_files flakyStorage sampleOutput
      { id := "abc123"
        manifest :=
          { manifest := "arweave/paths"
            version := "0.2.0"
            index := "index.html"
            paths := [("index.html", "id-index.html"),
                      ("assets/site.css", "id-assets/site.css")] } }
      (by decide)).2.1⟩

end DeployFolder

namespace UnderName

theorem getRecord_writeRecord (k name : String) (record : AntRecord) (records : Records) :
    getRecord k (writeRecord name record records)
      = if k = name then some record else getRecord k records := by
  induction records with
  | nil => simp [writeRecord, getRecord]
  | cons entry rest ih =>
    unfold writeRecord
    by_cases h : name = entry.1
    · by_cases hk : k = name
      · simp [h, hk, getRecord]
      · have hk' : k ≠ entry.1 := by rw [← h]; exact hk
        simp [h, hk', getRecord]
    · by_cases hk : k = name
      · subst hk
        simp [h, getRecord, ih]
      · simp [h, getRecord, ih, hk]

theorem writeRecord_writeRecord (name : String) (record : AntRecord) (records : Records) :
    writeRecord name record (writeRecord name record records)
      = writeRecord name record records := by
  induction records with
  | nil => simp [writeRecord]
  | cons entry rest ih =>
    by_cases h : name = entry.1
    · simp [writeRecord, h]
    · simp [writeRecord, h, ih]

theorem writeRecord_of_free (name : String) (record : AntRecord) (records : Records)
    (h : getRecord name records = none) :
    writeRecord name record records = records ++ [(name, record)] := by
  induction records with
  | nil => rfl
  | cons entry rest ih =>
    by_cases hn : name = entry.1
    · simp [getRecord, hn] at h
    · simp only [getRecord, hn, if_false] at h
      simp [writeRecord, hn, ih h]

theorem namespaced_ne (owner undernamePre : String) :
    undernamePre ≠ owner ++ "-" ++ undernamePre := by
  intro h
  have hlen := congrArg String.length h
  simp only [String.length_append] at hlen
  have : ("-" : String).length = 1 := by decide
  omega

/-- The branch `return false` is never taken: the test of the `else if` reads
the same name as the test of the `if`. -/
theorem setUnderName_never_false (service : Service) (records : Records)
    (undernamePre manifestId latestCommit owner : String) :
    (setUnderName service records undernamePre manifestId latestCommit owner).returned
      ≠ .jsFalse := by
  unfold setUnderName
  cases hr : getRecord undernamePre records <;> cases service.walletReadable <;>
    cases service.getRecordsOk <;> cases service.setRecordOk <;> simp [hr]

/-- C13, at the failing input: `site` and `alice-site` are both bound already.
The call for `site` by `alice` returns `true` after one call of `setRecord`,
which binds `alice-site` to the new transaction in place of the one it pointed
to. -/
theorem both_names_taken_overwrites :
    (getRecord "site" bothTaken).isSome = true
      ∧ (getRecord "alice-site" bothTaken).isSome = true
      ∧ setUnderName goodService bothTaken "site" "abc123" "c1" "alice" =
          { returned := .jsTrue
            setRecordCalls :=
              [{ undername := "alice-site"
                 transactionId := "abc123"
                 ttlSeconds := 3600
                 gitHash := "c1"
                 appName := "alice-site" }]
            records :=
              [("site", { transactionId := "tx-other", ttlSeconds := 3600 }),
               ("alice-site", { transactionId := "abc123", ttlSeconds := 3600 })] } := by
  decide

/-- Counterexample to C14: with `site` free, the first call binds `site`; the
second call, with the same arguments, finds `site` bound and binds
`alice-site` as well, so the bindings are not those left by the first call. -/
theorem second_call_adds_binding :
    setUnderName goodService [] "site" "abc123" "c1" "alice" =
        { returned := .jsTrue
          setRecordCalls :=
            [{ undername := "site"
               transactionId := "abc123"
               ttlSeconds := 3600
               gitHash := "c1"
               appName := "site" }]
          records := [("site", { transactionId := "abc123", ttlSeconds := 3600 })] }
      ∧ (setUnderName goodService
            (setUnderName goodService [] "site" "abc123" "c1" "alice").records
            "site" "abc123" "c1" "alice").records
          = [("site", { transactionId := "abc123", ttlSeconds := 3600 }),
             ("alice-site", { transactionId := "abc123", ttlSeconds := 3600 })]
      ∧ (setUnderName goodService
            (setUnderName goodService [] "site" "abc123" "c1" "alice").records
            "site" "abc123" "c1" "alice").records
          ≠ (setUnderName goodService [] "site" "abc123" "c1" "alice").records := by
  decide

/-- C14 (amended): when, before a first call that returned `true`, the desired
name was bound already and the namespaced name was free, the first call adds
the binding of the namespaced name to the transaction, and a second call with
the same arguments, run on the bindings the first call left, leaves exactly
those bindings. -/
theorem second_call_rebinds (service : Service) (records : Records)
    (undernamePre manifestId latestCommit owner : String)
    (hfirst : (setUnderName service records undernamePre manifestId latestCommit owner).returned
      = .jsTrue)
    (hbound : (getRecord undernamePre records).isSome = true)
    (hfree : getRecord (owner ++ "-" ++ undernamePre) records = none) :
    (setUnderName service records undernamePre manifestId latestCommit owner).records
        = records ++ [(owner ++ "-" ++ undernamePre,
            { transactionId := manifestId, ttlSeconds := 3600 })]
      ∧ (setUnderName service
          (setUnderName service records undernamePre manifestId latestCommit owner).records
          undernamePre manifestId latestCommit owner).records
        = (setUnderName service records undernamePre manifestId latestCommit owner).records := by
  have hw : service.walletReadable = true := by
    cases h : service.walletReadable
    · simp [setUnderName, h] at hfirst
    · rfl
  have hg : service.getRecordsOk = true := by
    cases h : service.getRecordsOk
    · simp [setUnderName, h] at hfirst
    · rfl
  have hs : service.setRecordOk = true := by
    cases h : service.setRecordOk
    · cases hr : getRecord undernamePre records <;> simp [setUnderName, hw, hg, h, hr] at hfirst
    · rfl
  have hne := namespaced_ne owner undernamePre
  cases hr : getRecord undernamePre records with
  | none => simp [hr] at hbound
  | some record =>
    have h1 : (setUnderName service records undernamePre manifestId latestCommit owner).records
        = writeRecord (owner ++ "-" ++ undernamePre)
            { transactionId := manifestId, ttlSeconds := 3600 } records := by
      simp [setUnderName, hw, hg, hs, hr]
    have h2 : getRecord undernamePre
        (writeRecord (owner ++ "-" ++ undernamePre)
          { transactionId := manifestId, ttlSeconds := 3600 } records) = some record := by
      rw [getRecord_writeRecord, if_neg hne, hr]
    rw [h1]
    refine ⟨writeRecord_of_free _ _ _ hfree, ?_⟩
    simp [setUnderName, hw, hg, hs, h2, writeRecord_writeRecord]

/-- Witness for C14 (amended): `site` is bound by someone else and `alice-site`
is free; the bindings after the second call are those after the first. -/
theorem second_call_rebinds_witness :
    (getRecord "site" [("site", { transactionId := "tx-other", ttlSeconds := 3600 })]).isSome
        = true
      ∧ (setUnderName goodService
            (setUnderName goodService
              [("site", { transactionId := "tx-other", ttlSeconds := 3600 })]
              "site" "abc123" "c1" "alice").records
            "site" "abc123" "c1" "alice").records
          = (setUnderName goodService
              [("site", { transactionId := "tx-other", ttlSeconds := 3600 })]
              "site" "abc123" "c1" "alice").records :=
  ⟨by decide,
   (second_call_rebinds goodService
      [("site", { transactionId := "tx-other", ttlSeconds := 3600 })]
      "site" "abc123" "c1" "alice" (by decide) (by decide) (by decide)).2⟩

end UnderName

namespace Deploy

/-- C15, at the failing inputs: for `https://www.github.com/alice/site.git` the
first `.git` is the one in the host name, and the folder derived is `site.git`;
for `https://host/alice/alice.github.io.git` the folder derived is
`alicehub.io.git`. The owner is `alice` in both, and the example of the
specification, `https://host/alice/site.git`, gives `alice` and `site`. -/
theorem git_before_suffix_keeps_suffix :
    ownerAndFolder wwwRequest = (some "alice", some "site.git")
      ∧ ownerAndFolder pagesRequest = (some "alice", some "alicehub.io.git")
      ∧ ownerAndFolder siteRequest = (some "alice", some "site") := by
  decide

end Deploy
